import Mathlib

/-!
Verification of the game-simulation core of the `game-craft-ai` repository
(`src/components/GameSimulation.tsx`), shallowly embedded in Lean 4.

Pure functions of the source become Lean functions; the React state updates
of `handleRoll`, `drawCard` and `resetGame` are modelled as explicit state
transformers on a `GameState` record.  `Math.random()` values are passed in
as rational parameters in `[0,1)`; JavaScript `Math.floor(random * n)`
indexing is `jsIndex`.  Fallible array indexing is modelled with `Option`
(JavaScript `undefined` becomes `none`), and the audio engine's `try/catch`
is modelled with `Except`.
-/

namespace GameCraft

/-- `TileType` from `src/types.ts`. -/
structure TileType where
  name : String
  effect : String
  color : String
deriving Repr, DecidableEq

/-- `CardType` from `src/types.ts`. -/
structure CardType where
  type : String
  description : String
  examples : List String
deriving Repr, DecidableEq

/-- `GameDesign` from `src/types.ts` (the optional `sources` field is a list
of title/uri pairs; `undefined` is modelled as `none`). -/
structure GameDesign where
  title : String
  overview : String
  goal : String
  story : String
  boardDesign : String
  tileTypes : List TileType
  components : List String
  cardTypes : List CardType
  rules : List String
  gameplay : List String
  winningCondition : String
  reward : String
  learningOutcomes : List String
  sources : Option (List (String × String)) := none
deriving Repr, DecidableEq

/-- The `type` field of a board space: `'START' | 'FINISH' | 'NORMAL'`. -/
inductive SpaceKind where
  | START
  | FINISH
  | NORMAL
deriving Repr, DecidableEq

/-- One entry of the `spaces` array built in `GameSimulation.tsx` (lines
116-137): normalized coordinates plus kind and optional tile. -/
structure BoardSpace where
  x : ℚ
  y : ℚ
  type : SpaceKind
  tileDetails : Option TileType
deriving Repr, DecidableEq

/-- The `drawnCard` record `{ type, content }`; `content` is an `Option`
because with an empty example list the JavaScript indexing yields
`undefined`. -/
structure DrawnCard where
  type : String
  content : Option String
deriving Repr, DecidableEq

/-- The `GameState` record of `GameSimulation.tsx` (lines 11-18). -/
structure GameState where
  playerPosition : Nat
  log : List String
  turn : Nat
  isGameOver : Bool
  currentEffect : Option String
  drawnCard : Option DrawnCard
deriving Repr, DecidableEq

/-- `const TOTAL_SPACES = 24` (line 20). -/
def TOTAL_SPACES : Nat := 24

/-- One space of the snake-pattern path (`useMemo` body, lines 116-137).
With an empty `tileTypes` the JavaScript index `i % 0` is `NaN` and the
lookup yields `undefined`; here `List.get?` of the (out-of-range) index
`i % 0 = i` likewise yields `none`. -/
def mkSpace (design : GameDesign) (i : Nat) : BoardSpace :=
  let rows : Nat := 4
  let cols : Nat := 6
  let row := i / cols
  let col := i % cols
  let actualCol := if row % 2 = 0 then col else cols - 1 - col
  { x := (actualCol : ℚ) / ((cols : ℚ) - 1) * 80 + 10
    y := 90 - (row : ℚ) / ((rows : ℚ) - 1) * 80
    type := if i = 0 then SpaceKind.START
            else if i = TOTAL_SPACES - 1 then SpaceKind.FINISH
            else SpaceKind.NORMAL
    tileDetails :=
      if i = 0 ∨ i = TOTAL_SPACES - 1 then none
      else design.tileTypes[i % design.tileTypes.length]? }

/-- The full `spaces` array. -/
def spaces (design : GameDesign) : List BoardSpace :=
  (List.range TOTAL_SPACES).map (mkSpace design)

/-- `spaces[n].tileDetails` as used at line 194. -/
def tileAtSpace (design : GameDesign) (n : Nat) : Option TileType :=
  ((spaces design)[n]?).bind (fun sp => sp.tileDetails)

/-- Decide whether a character-list has the given character-list prefix. -/
def listStartsWith : List Char → List Char → Bool
  | [], _ => true
  | _ :: _, [] => false
  | p :: ps, c :: cs => p == c && listStartsWith ps cs

/-- Decide whether `pat` occurs as a contiguous sublist, as JavaScript
`String.prototype.includes` does on the character sequence. -/
def listContainsSub (pat : List Char) : List Char → Bool
  | [] => listStartsWith pat []
  | c :: cs => listStartsWith pat (c :: cs) || listContainsSub pat cs

/-- JavaScript `toLowerCase()` on the code points (ASCII-relevant here). -/
def strToLower (s : String) : String :=
  String.mk (s.data.map Char.toLower)

/-- `tile.effect.toLowerCase().includes('card')` (line 201). -/
def effectMentionsCard (effect : String) : Bool :=
  listContainsSub "card".data (strToLower effect).data

/-- JavaScript `Math.floor(q * n)` for a random `q`, as a natural index. -/
def jsIndex (q : ℚ) (n : Nat) : Nat :=
  (⌊q * (n : ℚ)⌋).toNat

/-- `Math.floor(Math.random() * 6) + 1` (line 171). -/
def rollDie (q : ℚ) : Nat :=
  jsIndex q 6 + 1

/-- Render an optional string the way a JavaScript template literal renders
a possibly-`undefined` value. -/
def contentText : Option String → String
  | some s => s
  | none => "undefined"

/-- The initial `GameState` (lines 103-110). -/
def initialState : GameState :=
  { playerPosition := 0
    log := ["Welcome to the Playtest! Roll the dice to begin."]
    turn := 1
    isGameOver := false
    currentEffect := none
    drawnCard := none }

/-- `addToLog` (lines 139-144): prepend a message to the log. -/
def addToLog (message : String) (s : GameState) : GameState :=
  { s with log := message :: s.log }

/-- `drawCard` (lines 146-158).  `q1`, `q2` are the two `Math.random()`
values.  An out-of-range card-type index (impossible for `q1 ∈ [0,1)`)
would make JavaScript throw on `.type`, modelled by `none`; an empty
example list merely yields `undefined` content. -/
def drawCard (design : GameDesign) (q1 q2 : ℚ) (s : GameState) : Option GameState :=
  if design.cardTypes.length = 0 then some s
  else
    match design.cardTypes[jsIndex q1 design.cardTypes.length]? with
    | none => none
    | some randomCardType =>
      let randomExample := randomCardType.examples[jsIndex q2 randomCardType.examples.length]?
      let s1 := { s with drawnCard := some { type := randomCardType.type, content := randomExample } }
      some (addToLog ("🎴 Drew a " ++ randomCardType.type ++ ": \"" ++ contentText randomExample ++ "\"") s1)

/-- `Math.random() < 0.3 || tile.effect.toLowerCase().includes('card')`
(line 201), deciding whether a card draw is scheduled. -/
def cardDrawCheck (qc : ℚ) (tile : TileType) : Bool :=
  decide (qc < 3/10) || effectMentionsCard tile.effect

/-- `handleRoll` (lines 160-206) as a pure transition.  `isRolling` is the
reentrancy flag, `roll` the die value, `qc` the `Math.random()` used for
the card-draw chance.  Returns the new state together with whether a card
draw was scheduled (`setTimeout(drawCard, 500)`). -/
def handleRoll (design : GameDesign) (isRolling : Bool) (roll : Nat) (qc : ℚ)
    (s : GameState) : GameState × Bool :=
  if s.isGameOver || isRolling then (s, false)
  else
    let s1 : GameState := { s with currentEffect := none, drawnCard := none }
    let np0 := s1.playerPosition + roll
    let newPosition := if TOTAL_SPACES - 1 ≤ np0 then TOTAL_SPACES - 1 else np0
    let s2 :=
      if TOTAL_SPACES - 1 ≤ np0 then
        let wc := design.winningCondition
        addToLog ("🏆 " ++ wc)
          (addToLog ("🎲 Rolled a " ++ toString roll ++ ". Reached the Finish!")
            { s1 with isGameOver := true })
      else
        addToLog ("🎲 Rolled a " ++ toString roll ++ ". Moved to space " ++ toString (np0 + 1) ++ ".") s1
    let s3 := { s2 with playerPosition := newPosition, turn := s2.turn + 1 }
    if newPosition < TOTAL_SPACES - 1 ∧ 0 < newPosition then
      match tileAtSpace design newPosition with
      | some tile =>
        let s4 := addToLog ("📍 Landed on " ++ tile.name ++ ": " ++ tile.effect)
          { s3 with currentEffect := some tile.effect }
        (s4, cardDrawCheck qc tile)
      | none => (s3, false)
    else (s3, false)

/-- `resetGame` (lines 208-217). -/
def resetGame (_s : GameState) : GameState :=
  { playerPosition := 0
    log := ["Game reset. Ready to start!"]
    turn := 1
    isGameOver := false
    currentEffect := none
    drawnCard := none }

/-- Oscillator waveforms used by the audio engine. -/
inductive Waveform where
  | square
  | sine
  | triangle
deriving Repr, DecidableEq

/-- Parameters of one oscillator scheduled by `playSfx` (`createOsc` and the
inline oscillators): waveform, start/end frequency (equal when there is no
sweep), start offset, duration and peak volume, in Hz and seconds. -/
structure OscSpec where
  wave : Waveform
  freqStart : ℚ
  freqEnd : ℚ
  startOffset : ℚ
  duration : ℚ
  vol : ℚ
deriving Repr, DecidableEq

/-- The cue names accepted by `playSfx` (line 23). -/
inductive Cue where
  | roll
  | move
  | card
  | tile
  | win
deriving Repr, DecidableEq

/-- The hand-tuned oscillator schedule of each cue (lines 47-96). -/
def cueSpecs : Cue → List OscSpec
  | Cue.roll =>
    [{ wave := Waveform.square, freqStart := 150, freqEnd := 150, startOffset := 0, duration := 1/10, vol := 1/10 },
     { wave := Waveform.square, freqStart := 120, freqEnd := 120, startOffset := 2/25, duration := 1/10, vol := 1/10 },
     { wave := Waveform.square, freqStart := 100, freqEnd := 100, startOffset := 4/25, duration := 1/5, vol := 2/25 }]
  | Cue.move =>
    [{ wave := Waveform.sine, freqStart := 600, freqEnd := 100, startOffset := 0, duration := 3/20, vol := 3/20 }]
  | Cue.card =>
    [{ wave := Waveform.triangle, freqStart := 800, freqEnd := 1200, startOffset := 0, duration := 1/10, vol := 1/20 }]
  | Cue.tile =>
    [{ wave := Waveform.sine, freqStart := 880, freqEnd := 880, startOffset := 0, duration := 4/5, vol := 1/10 }]
  | Cue.win =>
    [{ wave := Waveform.triangle, freqStart := 2093/4, freqEnd := 2093/4, startOffset := 0, duration := 3/5, vol := 1/10 },
     { wave := Waveform.triangle, freqStart := 2637/4, freqEnd := 2637/4, startOffset := 1/10, duration := 3/5, vol := 1/10 },
     { wave := Waveform.triangle, freqStart := 78399/100, freqEnd := 78399/100, startOffset := 1/5, duration := 3/5, vol := 1/10 },
     { wave := Waveform.triangle, freqStart := 2093/2, freqEnd := 2093/2, startOffset := 3/10, duration := 3/5, vol := 1/10 }]

/-- The host environment seen by `playSfx`: whether `window.AudioContext`
(or the webkit fallback) exists, and the effect of scheduling one
oscillator, which may throw (modelled by `Except.error`). -/
structure AudioEnv where
  audioContextAvailable : Bool
  createOsc : OscSpec → Except String Unit

/-- Schedule a list of oscillators in order; the first throw aborts. -/
def playOscs (env : AudioEnv) : List OscSpec → Except String Unit
  | [] => Except.ok ()
  | spec :: rest => (env.createOsc spec).bind (fun _ => playOscs env rest)

/-- `playSfx` (lines 23-100).  The whole body is wrapped in `try/catch`
whose catch only logs `"Audio playback failed"`; when no `AudioContext`
exists the function returns early.  The result is the list of console-error
lines — never an `Except.error`, i.e. no exception escapes to the caller. -/
def playSfx (env : AudioEnv) (c : Cue) : Except String (List String) :=
  match (if env.audioContextAvailable then playOscs env (cueSpecs c) else Except.ok ()) with
  | Except.ok _ => Except.ok []
  | Except.error _ => Except.ok ["Audio playback failed"]

/-- A concrete design used to evaluate the transitions (the spec's §8
scenario design, with one card type added). -/
def dEx : GameDesign :=
  { title := "Eco Quest"
    overview := ""
    goal := ""
    story := ""
    boardDesign := ""
    tileTypes := [{ name := "Recycle", effect := "Draw a card", color := "#00ff00" },
                  { name := "Litter", effect := "Lose a turn", color := "#ff0000" }]
    components := []
    cardTypes := [{ type := "Action Card", description := "Things to do", examples := ["Plant a tree", "Sort the bins"] }]
    rules := []
    gameplay := []
    winningCondition := "Reach the finish with the most points"
    reward := "Golden badge"
    learningOutcomes := [] }

/-- A design whose `tileTypes` list is empty. -/
def dEmpty : GameDesign :=
  { dEx with tileTypes := [] }

/-- The first tile type of `dEx`. -/
def recycleTile : TileType :=
  { name := "Recycle", effect := "Draw a card", color := "#00ff00" }

/-- A state one short of the finish, reachable after some turns. -/
def st22 : GameState :=
  { playerPosition := 22
    log := ["Welcome to the Playtest! Roll the dice to begin."]
    turn := 5
    isGameOver := false
    currentEffect := none
    drawnCard := none }

/-- A finished game's state. -/
def stOver : GameState :=
  { playerPosition := 23
    log := ["done"]
    turn := 7
    isGameOver := true
    currentEffect := none
    drawnCard := none }

/-- An audio environment whose oscillator scheduling always throws. -/
def envBoom : AudioEnv :=
  { audioContextAvailable := true
    createOsc := fun _ => Except.error "boom" }

/-- An audio environment with no `AudioContext` at all. -/
def envNoAudio : AudioEnv :=
  { audioContextAvailable := false
    createOsc := fun _ => Except.ok () }

/-! ### Helper lemmas -/

theorem jsIndex_lt {q : ℚ} {n : Nat} (h0 : 0 ≤ q) (h1 : q < 1) (hn : 0 < n) :
    jsIndex q n < n := by
  have hnq : (0 : ℚ) < (n : ℚ) := by exact_mod_cast hn
  have hq : q * (n : ℚ) < (n : ℚ) := by
    calc q * (n : ℚ) < 1 * (n : ℚ) := mul_lt_mul_of_pos_right h1 hnq
    _ = (n : ℚ) := one_mul _
  have hfl : ⌊q * (n : ℚ)⌋ < (n : ℤ) := by
    rw [Int.floor_lt]
    push_cast
    exact hq
  simp only [jsIndex]
  omega

theorem jsIndex_uniform {n k : Nat} (hn : 0 < n) (hk : k < n) {q : ℚ}
    (hlo : (k : ℚ) / (n : ℚ) ≤ q) (hhi : q < ((k : ℚ) + 1) / (n : ℚ)) :
    jsIndex q n = k := by
  have hn' : (0 : ℚ) < (n : ℚ) := by exact_mod_cast hn
  have h1 : (k : ℚ) ≤ q * (n : ℚ) := (div_le_iff hn').mp hlo
  have h2 : q * (n : ℚ) < (k : ℚ) + 1 := (lt_div_iff hn').mp hhi
  have hfl : ⌊q * (n : ℚ)⌋ = (k : ℤ) := by
    rw [Int.floor_eq_iff]
    constructor
    · push_cast
      exact h1
    · push_cast
      exact h2
  simp [jsIndex, hfl]

theorem rollDie_range {q : ℚ} (h0 : 0 ≤ q) (h1 : q < 1) :
    1 ≤ rollDie q ∧ rollDie q ≤ 6 := by
  have h6 : jsIndex q 6 < 6 := jsIndex_lt h0 h1 (by norm_num)
  unfold rollDie
  omega

theorem spaces_getElem (design : GameDesign) (n : Nat) (h : n < TOTAL_SPACES) :
    (spaces design)[n]? = some (mkSpace design n) := by
  simp [spaces, List.getElem?_map, List.getElem?_range h]

theorem tileAtSpace_eq (design : GameDesign) (n : Nat) (h0 : 0 < n)
    (h23 : n < TOTAL_SPACES - 1) :
    tileAtSpace design n = design.tileTypes[n % design.tileTypes.length]? := by
  have hn : n < TOTAL_SPACES := by omega
  have h1 : ¬ (n = 0 ∨ n = TOTAL_SPACES - 1) := by
    simp [TOTAL_SPACES] at h23 ⊢
    omega
  simp [tileAtSpace, spaces_getElem design n hn, mkSpace, h1]

/-- Accepted game-ending roll: full characterization. -/
theorem handleRoll_clamped (design : GameDesign) (roll : Nat) (qc : ℚ) (s : GameState)
    (h : s.isGameOver = false) (h23 : TOTAL_SPACES - 1 ≤ s.playerPosition + roll) :
    handleRoll design false roll qc s =
      ({ s with currentEffect := none
                drawnCard := none
                isGameOver := true
                playerPosition := TOTAL_SPACES - 1
                turn := s.turn + 1
                log := ("🏆 " ++ design.winningCondition) ::
                       ("🎲 Rolled a " ++ toString roll ++ ". Reached the Finish!") :: s.log },
       false) := by
  simp only [handleRoll, h, Bool.false_or, Bool.or_self, if_false, addToLog]
  simp only [h23, if_true, if_pos]
  simp [TOTAL_SPACES]

/-- Accepted non-winning roll landing on a tile: full characterization. -/
theorem handleRoll_tile (design : GameDesign) (roll : Nat) (qc : ℚ) (s : GameState)
    (tile : TileType) (h : s.isGameOver = false)
    (hlt : s.playerPosition + roll < TOTAL_SPACES - 1) (hpos : 0 < s.playerPosition + roll)
    (htile : tileAtSpace design (s.playerPosition + roll) = some tile) :
    handleRoll design false roll qc s =
      ({ s with currentEffect := some tile.effect
                drawnCard := none
                playerPosition := s.playerPosition + roll
                turn := s.turn + 1
                log := ("📍 Landed on " ++ tile.name ++ ": " ++ tile.effect) ::
                       ("🎲 Rolled a " ++ toString roll ++ ". Moved to space " ++
                         toString (s.playerPosition + roll + 1) ++ ".") :: s.log },
       cardDrawCheck qc tile) := by
  have h23 : ¬ (TOTAL_SPACES - 1 ≤ s.playerPosition + roll) := by omega
  simp only [handleRoll, h, Bool.false_or, Bool.or_self, if_false, addToLog]
  simp only [h23, if_false, if_neg]
  simp [hlt, hpos, htile]

/-- Accepted non-winning roll landing on a tile-less space: full
characterization. -/
theorem handleRoll_noTile (design : GameDesign) (roll : Nat) (qc : ℚ) (s : GameState)
    (h : s.isGameOver = false)
    (hlt : s.playerPosition + roll < TOTAL_SPACES - 1)
    (htile : 0 < s.playerPosition + roll → tileAtSpace design (s.playerPosition + roll) = none) :
    handleRoll design false roll qc s =
      ({ s with currentEffect := none
                drawnCard := none
                playerPosition := s.playerPosition + roll
                turn := s.turn + 1
                log := ("🎲 Rolled a " ++ toString roll ++ ". Moved to space " ++
                         toString (s.playerPosition + roll + 1) ++ ".") :: s.log },
       false) := by
  have h23 : ¬ (TOTAL_SPACES - 1 ≤ s.playerPosition + roll) := by omega
  simp only [handleRoll, h, Bool.false_or, Bool.or_self, if_false, addToLog]
  simp only [h23, if_false, if_neg]
  by_cases hpos : 0 < s.playerPosition + roll
  · simp [hlt, hpos, htile hpos]
  · simp [hpos]

/-! ### Claim theorems -/

/-- Claim C1: for every starting position `p ∈ [0,23]` and die roll
`r ∈ [1,6]`, an accepted roll sets `playerPosition` to `min (p + r) 23`:
it never exceeds 23, never decreases, and when `p + r` reaches or exceeds
23 the position is clamped to 23 and `isGameOver` becomes true.  The die
values produced by `rollDie` from a uniform `q ∈ [0,1)` indeed lie in
`[1,6]`. -/
theorem claim_roll_position_clamp (design : GameDesign) (roll : Nat) (qc : ℚ)
    (s : GameState) (hover : s.isGameOver = false) (hp : s.playerPosition ≤ 23)
    (hr1 : 1 ≤ roll) (hr6 : roll ≤ 6) :
    (handleRoll design false roll qc s).1.playerPosition = min (s.playerPosition + roll) 23 ∧
    s.playerPosition ≤ (handleRoll design false roll qc s).1.playerPosition ∧
    (handleRoll design false roll qc s).1.playerPosition ≤ 23 ∧
    (23 ≤ s.playerPosition + roll →
      (handleRoll design false roll qc s).1.playerPosition = 23 ∧
      (handleRoll design false roll qc s).1.isGameOver = true) ∧
    (∀ q : ℚ, 0 ≤ q → q < 1 → 1 ≤ rollDie q ∧ rollDie q ≤ 6) := by
  have hdie : ∀ q : ℚ, 0 ≤ q → q < 1 → 1 ≤ rollDie q ∧ rollDie q ≤ 6 :=
    fun _ hq0 hq1 => rollDie_range hq0 hq1
  by_cases h23 : TOTAL_SPACES - 1 ≤ s.playerPosition + roll
  · rw [handleRoll_clamped design roll qc s hover h23]
    simp only [TOTAL_SPACES] at h23
    refine ⟨?_, ?_, ?_, ?_, hdie⟩
    · simp [TOTAL_SPACES]
      omega
    · simp [TOTAL_SPACES]
      omega
    · simp [TOTAL_SPACES]
    · intro hc
      exact ⟨by simp [TOTAL_SPACES], by simp⟩
  · have hlt : s.playerPosition + roll < TOTAL_SPACES - 1 := by omega
    have hpos : 0 < s.playerPosition + roll := by omega
    have h23' : s.playerPosition + roll < 23 := by simp only [TOTAL_SPACES] at hlt; omega
    rcases htile : tileAtSpace design (s.playerPosition + roll) with _ | tile
    · rw [handleRoll_noTile design roll qc s hover hlt (fun _ => htile)]
      exact ⟨by simp; omega, by simp, by simp; omega, fun hc => absurd hc (by omega), hdie⟩
    · rw [handleRoll_tile design roll qc s tile hover hlt hpos htile]
      exact ⟨by simp; omega, by simp, by simp; omega, fun hc => absurd hc (by omega), hdie⟩

/-- Witness for C1 at `p = 22`, `r = 5` (the spec's §8 overshoot scenario). -/
theorem claim_roll_position_clamp_witness :
    st22.isGameOver = false ∧ st22.playerPosition ≤ 23 ∧ 1 ≤ 5 ∧ 5 ≤ 6 ∧
    ((handleRoll dEx false 5 (1/2) st22).1.playerPosition = min (st22.playerPosition + 5) 23 ∧
     st22.playerPosition ≤ (handleRoll dEx false 5 (1/2) st22).1.playerPosition ∧
     (handleRoll dEx false 5 (1/2) st22).1.playerPosition ≤ 23 ∧
     (23 ≤ st22.playerPosition + 5 →
       (handleRoll dEx false 5 (1/2) st22).1.playerPosition = 23 ∧
       (handleRoll dEx false 5 (1/2) st22).1.isGameOver = true) ∧
     (∀ q : ℚ, 0 ≤ q → q < 1 → 1 ≤ rollDie q ∧ rollDie q ≤ 6)) :=
  ⟨rfl, by decide, by decide, by decide,
    claim_roll_position_clamp dEx 5 (1/2) st22 rfl (by decide) (by decide) (by decide)⟩

/-- Claim C2: whenever `isGameOver` is true the roll action is a complete
no-op — the state (position, turn, game-over flag, effect, drawn card and
log) is returned unchanged and no card draw is scheduled.  (`resetGame`
is the only transition here that mutates a game-over state.) -/
theorem claim_gameover_roll_noop (design : GameDesign) (isRolling : Bool)
    (roll : Nat) (qc : ℚ) (s : GameState) (h : s.isGameOver = true) :
    handleRoll design isRolling roll qc s = (s, false) := by
  simp [handleRoll, h]

/-- Witness for C2 on a concrete finished state. -/
theorem claim_gameover_roll_noop_witness :
    stOver.isGameOver = true ∧ handleRoll dEx false 4 (1/2) stOver = (stOver, false) :=
  ⟨rfl, claim_gameover_roll_noop dEx false 4 (1/2) stOver rfl⟩

/-- Counterexample to claim C3 as stated: a game-ending roll (from
position 22 with a 5) prepends TWO log entries — a roll-result line and a
separate win-condition line — not one combined entry: the log grows from
1 entry to 3, not to 2. -/
theorem claim_log_shape_counterexample :
    st22.isGameOver = false ∧ 23 ≤ st22.playerPosition + 5 ∧
    st22.log.length = 1 ∧
    (handleRoll dEx false 5 (1/2) st22).1.log.length = 3 ∧
    ¬ ((handleRoll dEx false 5 (1/2) st22).1.log.length = st22.log.length + 1) := by
  have h3 : (handleRoll dEx false 5 (1/2) st22).1.log.length = 3 := rfl
  have h1 : st22.log.length = 1 := rfl
  exact ⟨rfl, by decide, h1, h3, by omega⟩

/-- Claim C3 (amended): every accepted roll prepends exactly one or two
new entries to the front of the log — exactly two when the roll is
game-ending (a roll-result entry and a separate win-condition entry),
exactly two when it lands on a tile (the move entry plus the tile entry),
and exactly one (the move entry alone) otherwise — and reset replaces the
entire log with a single new entry. -/
theorem claim_log_shape_amended (design : GameDesign) (roll : Nat) (qc : ℚ)
    (s : GameState) (hover : s.isGameOver = false) :
    ((∃ a, (handleRoll design false roll qc s).1.log = a :: s.log) ∨
     (∃ a b, (handleRoll design false roll qc s).1.log = a :: b :: s.log)) ∧
    (23 ≤ s.playerPosition + roll →
      (handleRoll design false roll qc s).1.log =
        ("🏆 " ++ design.winningCondition) ::
        ("🎲 Rolled a " ++ toString roll ++ ". Reached the Finish!") :: s.log) ∧
    (∀ tile : TileType, s.playerPosition + roll < 23 → 0 < s.playerPosition + roll →
      tileAtSpace design (s.playerPosition + roll) = some tile →
      (handleRoll design false roll qc s).1.log =
        ("📍 Landed on " ++ tile.name ++ ": " ++ tile.effect) ::
        ("🎲 Rolled a " ++ toString roll ++ ". Moved to space " ++
          toString (s.playerPosition + roll + 1) ++ ".") :: s.log) ∧
    (s.playerPosition + roll < 23 →
      (0 < s.playerPosition + roll → tileAtSpace design (s.playerPosition + roll) = none) →
      (handleRoll design false roll qc s).1.log =
        ("🎲 Rolled a " ++ toString roll ++ ". Moved to space " ++
          toString (s.playerPosition + roll + 1) ++ ".") :: s.log) ∧
    (∀ t : GameState, (resetGame t).log = ["Game reset. Ready to start!"]) := by
  refine ⟨?_, ?_, ?_, ?_, fun _ => rfl⟩
  · by_cases h23 : TOTAL_SPACES - 1 ≤ s.playerPosition + roll
    · rw [handleRoll_clamped design roll qc s hover h23]
      exact Or.inr ⟨_, _, rfl⟩
    · have hlt : s.playerPosition + roll < TOTAL_SPACES - 1 := by omega
      rcases htile : tileAtSpace design (s.playerPosition + roll) with _ | tile
      · rw [handleRoll_noTile design roll qc s hover hlt (fun _ => htile)]
        exact Or.inl ⟨_, rfl⟩
      · by_cases hpos : 0 < s.playerPosition + roll
        · rw [handleRoll_tile design roll qc s tile hover hlt hpos htile]
          exact Or.inr ⟨_, _, rfl⟩
        · rw [handleRoll_noTile design roll qc s hover hlt (fun hp => absurd hp hpos)]
          exact Or.inl ⟨_, rfl⟩
  · intro h23
    rw [handleRoll_clamped design roll qc s hover (by simp only [TOTAL_SPACES]; omega)]
  · intro tile hlt hpos htile
    rw [handleRoll_tile design roll qc s tile hover (by simp only [TOTAL_SPACES]; omega)
        hpos htile]
  · intro hlt hnone
    rw [handleRoll_noTile design roll qc s hover (by simp only [TOTAL_SPACES]; omega) hnone]

/-- Witness for the amended C3 on a concrete game-ending roll. -/
theorem claim_log_shape_amended_witness :
    st22.isGameOver = false ∧
    (((∃ a, (handleRoll dEx false 5 (1/2) st22).1.log = a :: st22.log) ∨
      (∃ a b, (handleRoll dEx false 5 (1/2) st22).1.log = a :: b :: st22.log)) ∧
     (23 ≤ st22.playerPosition + 5 →
       (handleRoll dEx false 5 (1/2) st22).1.log =
         ("🏆 " ++ dEx.winningCondition) ::
         ("🎲 Rolled a " ++ toString 5 ++ ". Reached the Finish!") :: st22.log) ∧
     (∀ tile : TileType, st22.playerPosition + 5 < 23 → 0 < st22.playerPosition + 5 →
       tileAtSpace dEx (st22.playerPosition + 5) = some tile →
       (handleRoll dEx false 5 (1/2) st22).1.log =
         ("📍 Landed on " ++ tile.name ++ ": " ++ tile.effect) ::
         ("🎲 Rolled a " ++ toString 5 ++ ". Moved to space " ++
           toString (st22.playerPosition + 5 + 1) ++ ".") :: st22.log) ∧
     (st22.playerPosition + 5 < 23 →
       (0 < st22.playerPosition + 5 → tileAtSpace dEx (st22.playerPosition + 5) = none) →
       (handleRoll dEx false 5 (1/2) st22).1.log =
         ("🎲 Rolled a " ++ toString 5 ++ ". Moved to space " ++
           toString (st22.playerPosition + 5 + 1) ++ ".") :: st22.log) ∧
     (∀ t : GameState, (resetGame t).log = ["Game reset. Ready to start!"])) :=
  ⟨rfl, claim_log_shape_amended dEx 5 (1/2) st22 rfl⟩

/-- Claim C4: a roll landing exactly on index 0 or index 23 never sets
`currentEffect` — the win path short-circuits past the tile-effect branch
(whose guard excludes both boundary indices), so `currentEffect` is still
`none` afterwards and no card draw is scheduled. -/
theorem claim_boundary_no_effect (design : GameDesign) (roll : Nat) (qc : ℚ)
    (s : GameState) (hover : s.isGameOver = false)
    (hb : s.playerPosition + roll = 0 ∨ 23 ≤ s.playerPosition + roll) :
    (handleRoll design false roll qc s).1.currentEffect = none ∧
    (handleRoll design false roll qc s).2 = false := by
  rcases hb with h0 | h23
  · rw [handleRoll_noTile design roll qc s hover (by simp only [TOTAL_SPACES]; omega)
        (fun hp => absurd hp (by omega))]
    simp
  · rw [handleRoll_clamped design roll qc s hover (by simp only [TOTAL_SPACES]; omega)]
    simp

/-- Witness for C4 on the concrete clamped roll from position 22. -/
theorem claim_boundary_no_effect_witness :
    st22.isGameOver = false ∧
    (st22.playerPosition + 5 = 0 ∨ 23 ≤ st22.playerPosition + 5) ∧
    ((handleRoll dEx false 5 (1/2) st22).1.currentEffect = none ∧
     (handleRoll dEx false 5 (1/2) st22).2 = false) :=
  ⟨rfl, by decide, claim_boundary_no_effect dEx 5 (1/2) st22 rfl (by decide)⟩

/-- Claim C5: the board has exactly 24 spaces on a 4x6 grid; row `r = i/6`
lists columns left-to-right when `r` is even (`x = 10 + 16·(i%6)`) and
right-to-left when `r` is odd (`x = 90 - 16·(i%6)`), so `x` maps linearly
to `[10,90]`; `y = 90 - (80/3)·r` maps linearly to `[90,10]` with row 0 at
the bottom; space 0 is START, space 23 is FINISH, and every other space
`i` is NORMAL carrying tile `tileTypes[i % tileTypes.length]`. -/
theorem claim_board_layout (design : GameDesign) (hd : 0 < design.tileTypes.length) :
    (spaces design).length = 24 ∧
    (∀ i, i < 24 → (spaces design)[i]? = some (mkSpace design i)) ∧
    (∀ i, i < 24 →
      ((i / 6) % 2 = 0 → (mkSpace design i).x = 10 + 16 * ((i % 6 : Nat) : ℚ)) ∧
      ((i / 6) % 2 = 1 → (mkSpace design i).x = 90 - 16 * ((i % 6 : Nat) : ℚ)) ∧
      (mkSpace design i).y = 90 - (80 / 3) * ((i / 6 : Nat) : ℚ) ∧
      10 ≤ (mkSpace design i).x ∧ (mkSpace design i).x ≤ 90 ∧
      10 ≤ (mkSpace design i).y ∧ (mkSpace design i).y ≤ 90) ∧
    (mkSpace design 0).type = SpaceKind.START ∧
    (mkSpace design 23).type = SpaceKind.FINISH ∧
    (∀ i, 0 < i → i < 23 →
      (mkSpace design i).type = SpaceKind.NORMAL ∧
      (mkSpace design i).tileDetails = design.tileTypes[i % design.tileTypes.length]? ∧
      ∃ t, (mkSpace design i).tileDetails = some t) := by
  refine ⟨by simp [spaces, TOTAL_SPACES], ?_, ?_, rfl, rfl, ?_⟩
  · intro i hi
    exact spaces_getElem design i (by simp only [TOTAL_SPACES]; omega)
  · intro i hi
    interval_cases i <;> refine ⟨?_, ?_, ?_, ?_, ?_, ?_, ?_⟩ <;> norm_num [mkSpace]
  · intro i h0 h23
    have h1 : ¬ (i = 0) := by omega
    have h2 : ¬ (i = TOTAL_SPACES - 1) := by simp only [TOTAL_SPACES]; omega
    have h3 : ¬ (i = 0 ∨ i = TOTAL_SPACES - 1) := by
      push_neg
      exact ⟨h1, h2⟩
    have hm : i % design.tileTypes.length < design.tileTypes.length := Nat.mod_lt _ hd
    refine ⟨by simp [mkSpace, h1, h2], by simp [mkSpace, h3], ?_⟩
    refine ⟨design.tileTypes[i % design.tileTypes.length], ?_⟩
    simp only [mkSpace, h3, if_false, if_neg]
    exact List.getElem?_eq_getElem hm

/-- Witness for C5 on the concrete design `dEx`. -/
theorem claim_board_layout_witness :
    0 < dEx.tileTypes.length ∧
    ((spaces dEx).length = 24 ∧
     (∀ i, i < 24 → (spaces dEx)[i]? = some (mkSpace dEx i)) ∧
     (∀ i, i < 24 →
       ((i / 6) % 2 = 0 → (mkSpace dEx i).x = 10 + 16 * ((i % 6 : Nat) : ℚ)) ∧
       ((i / 6) % 2 = 1 → (mkSpace dEx i).x = 90 - 16 * ((i % 6 : Nat) : ℚ)) ∧
       (mkSpace dEx i).y = 90 - (80 / 3) * ((i / 6 : Nat) : ℚ) ∧
       10 ≤ (mkSpace dEx i).x ∧ (mkSpace dEx i).x ≤ 90 ∧
       10 ≤ (mkSpace dEx i).y ∧ (mkSpace dEx i).y ≤ 90) ∧
     (mkSpace dEx 0).type = SpaceKind.START ∧
     (mkSpace dEx 23).type = SpaceKind.FINISH ∧
     (∀ i, 0 < i → i < 23 →
       (mkSpace dEx i).type = SpaceKind.NORMAL ∧
       (mkSpace dEx i).tileDetails = dEx.tileTypes[i % dEx.tileTypes.length]? ∧
       ∃ t, (mkSpace dEx i).tileDetails = some t)) :=
  ⟨by decide, claim_board_layout dEx (by decide)⟩

/-- Claim C6: after an accepted non-winning roll landing on a tile strictly
between start and finish, a card draw is scheduled if and only if the
uniform random number is below 0.3 OR the tile's effect text contains
"card" case-insensitively; for effect text "Draw a card" the draw is
forced for every random value. -/
theorem claim_card_draw_trigger (design : GameDesign) (roll : Nat) (qc : ℚ)
    (s : GameState) (tile : TileType) (hover : s.isGameOver = false)
    (hlt : s.playerPosition + roll < 23) (hpos : 0 < s.playerPosition + roll)
    (htile : tileAtSpace design (s.playerPosition + roll) = some tile) :
    ((handleRoll design false roll qc s).2
       = (decide (qc < 3/10) || effectMentionsCard tile.effect)) ∧
    ((handleRoll design false roll qc s).2 = true ↔
       (qc < 3/10 ∨ effectMentionsCard tile.effect = true)) ∧
    (tile.effect = "Draw a card" → (handleRoll design false roll qc s).2 = true) := by
  rw [handleRoll_tile design roll qc s tile hover (by simp only [TOTAL_SPACES]; omega) hpos htile]
  have hcard : effectMentionsCard "Draw a card" = true := by decide
  refine ⟨rfl, ?_, ?_⟩
  · simp [cardDrawCheck]
  · intro he
    simp [cardDrawCheck, he, hcard]

/-- Witness for C6: from the start, rolling a 4 lands on the "Recycle"
tile of `dEx`, whose effect "Draw a card" forces the draw even though the
random value 1/2 is above 0.3. -/
theorem claim_card_draw_trigger_witness :
    initialState.isGameOver = false ∧
    initialState.playerPosition + 4 < 23 ∧
    0 < initialState.playerPosition + 4 ∧
    tileAtSpace dEx (initialState.playerPosition + 4) = some recycleTile ∧
    (((handleRoll dEx false 4 (1/2) initialState).2
        = (decide ((1:ℚ)/2 < 3/10) || effectMentionsCard recycleTile.effect)) ∧
     ((handleRoll dEx false 4 (1/2) initialState).2 = true ↔
        ((1:ℚ)/2 < 3/10 ∨ effectMentionsCard recycleTile.effect = true)) ∧
     (recycleTile.effect = "Draw a card" → (handleRoll dEx false 4 (1/2) initialState).2 = true)) :=
  ⟨rfl, by decide, by decide, rfl,
    claim_card_draw_trigger dEx 4 (1/2) initialState recycleTile rfl (by decide) (by decide) rfl⟩

/-- Claim C7: `drawCard` is a no-op when the design has no card types;
otherwise, for uniform random values in `[0,1)`, it selects the card type
at index `⌊q1·|cardTypes|⌋`, the example at index `⌊q2·|examples|⌋` (a
real example whenever the example list is non-empty), sets `drawnCard`
accordingly and prepends exactly one log line quoting the example, leaving
every other state field unchanged; `jsIndex` picks each index `k < n`
exactly on the interval `[k/n, (k+1)/n)`, i.e. uniformly. -/
theorem claim_draw_card (design : GameDesign) (q1 q2 : ℚ) (s : GameState)
    (h10 : 0 ≤ q1) (h11 : q1 < 1) (h20 : 0 ≤ q2) (h21 : q2 < 1) :
    (design.cardTypes = [] → drawCard design q1 q2 s = some s) ∧
    (design.cardTypes ≠ [] →
      ∃ ct, design.cardTypes[jsIndex q1 design.cardTypes.length]? = some ct ∧
        drawCard design q1 q2 s = some
          { s with
              drawnCard := some
                { type := ct.type
                  content := ct.examples[jsIndex q2 ct.examples.length]? }
              log := ("🎴 Drew a " ++ ct.type ++ ": \"" ++
                       contentText (ct.examples[jsIndex q2 ct.examples.length]?) ++ "\"") :: s.log } ∧
        (ct.examples ≠ [] → ∃ ex, ct.examples[jsIndex q2 ct.examples.length]? = some ex)) ∧
    (∀ n k : Nat, 0 < n → k < n → ∀ q : ℚ,
      (k : ℚ) / (n : ℚ) ≤ q → q < ((k : ℚ) + 1) / (n : ℚ) → jsIndex q n = k) := by
  refine ⟨?_, ?_, fun n k hn hk q hlo hhi => jsIndex_uniform hn hk hlo hhi⟩
  · intro he
    simp [drawCard, he]
  · intro hne
    have hlen : 0 < design.cardTypes.length := List.length_pos.mpr hne
    have hidx : jsIndex q1 design.cardTypes.length < design.cardTypes.length :=
      jsIndex_lt h10 h11 hlen
    have h0 : ¬ (design.cardTypes.length = 0) := by omega
    refine ⟨design.cardTypes[jsIndex q1 design.cardTypes.length],
      List.getElem?_eq_getElem hidx, ?_, ?_⟩
    · simp [drawCard, h0, List.getElem?_eq_getElem hidx, addToLog]
    · intro hex
      have hlen2 : 0 < (design.cardTypes[jsIndex q1 design.cardTypes.length]).examples.length :=
        List.length_pos.mpr hex
      exact ⟨_, List.getElem?_eq_getElem (jsIndex_lt h20 h21 hlen2)⟩

/-- Witness for C7 on `dEx` with `q1 = 1/3`, `q2 = 2/3`. -/
theorem claim_draw_card_witness :
    (0:ℚ) ≤ 1/3 ∧ (1:ℚ)/3 < 1 ∧ (0:ℚ) ≤ 2/3 ∧ (2:ℚ)/3 < 1 ∧
    ((dEx.cardTypes = [] → drawCard dEx (1/3) (2/3) initialState = some initialState) ∧
     (dEx.cardTypes ≠ [] →
       ∃ ct, dEx.cardTypes[jsIndex (1/3) dEx.cardTypes.length]? = some ct ∧
         drawCard dEx (1/3) (2/3) initialState = some
           { initialState with
               drawnCard := some
                 { type := ct.type
                   content := ct.examples[jsIndex (2/3) ct.examples.length]? }
               log := ("🎴 Drew a " ++ ct.type ++ ": \"" ++
                        contentText (ct.examples[jsIndex (2/3) ct.examples.length]?) ++ "\"") :: initialState.log } ∧
         (ct.examples ≠ [] → ∃ ex, ct.examples[jsIndex (2/3) ct.examples.length]? = some ex)) ∧
     (∀ n k : Nat, 0 < n → k < n → ∀ q : ℚ,
       (k : ℚ) / (n : ℚ) ≤ q → q < ((k : ℚ) + 1) / (n : ℚ) → jsIndex q n = k)) :=
  ⟨by norm_num, by norm_num, by norm_num, by norm_num,
    claim_draw_card dEx (1/3) (2/3) initialState (by norm_num) (by norm_num) (by norm_num) (by norm_num)⟩

/-- Claim C8: for every environment and cue, `playSfx` returns normally
(`Except.ok`) — when no audio capability exists it silently plays nothing,
and when a synthesis step throws, the catch swallows the exception and
only a console line results, so a failed cue can never raise to (and thus
never block) the gameplay transition that invoked it. -/
theorem claim_sfx_never_throws (env : AudioEnv) (c : Cue) :
    (∃ logs, playSfx env c = Except.ok logs) ∧
    (env.audioContextAvailable = false → playSfx env c = Except.ok []) ∧
    (env.audioContextAvailable = true →
      ∀ e, playOscs env (cueSpecs c) = Except.error e →
        playSfx env c = Except.ok ["Audio playback failed"]) := by
  refine ⟨?_, ?_, ?_⟩
  · rcases hsc : (if env.audioContextAvailable then playOscs env (cueSpecs c) else Except.ok ()) with e | v
    · exact ⟨["Audio playback failed"], by simp [playSfx, hsc]⟩
    · exact ⟨[], by simp [playSfx, hsc]⟩
  · intro h
    simp [playSfx, h]
  · intro ha e he
    simp [playSfx, ha, he]

/-- Witness for C8 on an environment whose synthesis always throws. -/
theorem claim_sfx_never_throws_witness :
    (∃ logs, playSfx envBoom Cue.win = Except.ok logs) ∧
    (envBoom.audioContextAvailable = false → playSfx envBoom Cue.win = Except.ok []) ∧
    (envBoom.audioContextAvailable = true →
      ∀ e, playOscs envBoom (cueSpecs Cue.win) = Except.error e →
        playSfx envBoom Cue.win = Except.ok ["Audio playback failed"]) :=
  claim_sfx_never_throws envBoom Cue.win

/-- Claim C9: the coordinates of the board spaces do not depend on the
design at all — any two designs, even with different numbers of tile
types, yield the identical coordinate layout for all 24 spaces. -/
theorem claim_layout_design_independent (d1 d2 : GameDesign) :
    (spaces d1).map (fun sp => (sp.x, sp.y)) = (spaces d2).map (fun sp => (sp.x, sp.y)) ∧
    (spaces d1).length = (spaces d2).length :=
  ⟨rfl, rfl⟩

/-- Claim C10: with an empty `tileTypes` list the simulation still works:
all 24 spaces carry no tile (the out-of-range modulo index is absorbed
into `none`), and every accepted roll completes with the tile branch
skipped — `currentEffect` stays `none`, no card draw is scheduled, a
non-winning roll prepends only its move line and a winning roll only its
two ending lines. -/
theorem claim_empty_tiles_safe (design : GameDesign) (hd : design.tileTypes = []) :
    (spaces design).length = 24 ∧
    (∀ i, i < 24 → (mkSpace design i).tileDetails = none) ∧
    (∀ (roll : Nat) (qc : ℚ) (s : GameState), s.isGameOver = false →
      (handleRoll design false roll qc s).1.currentEffect = none ∧
      (handleRoll design false roll qc s).2 = false ∧
      (s.playerPosition + roll < 23 →
        (handleRoll design false roll qc s).1.log =
          ("🎲 Rolled a " ++ toString roll ++ ". Moved to space " ++
            toString (s.playerPosition + roll + 1) ++ ".") :: s.log) ∧
      (23 ≤ s.playerPosition + roll →
        (handleRoll design false roll qc s).1.log =
          ("🏆 " ++ design.winningCondition) ::
          ("🎲 Rolled a " ++ toString roll ++ ". Reached the Finish!") :: s.log)) := by
  refine ⟨by simp [spaces, TOTAL_SPACES], ?_, ?_⟩
  · intro i hi
    by_cases h03 : i = 0 ∨ i = TOTAL_SPACES - 1
    · simp [mkSpace, h03]
    · simp [mkSpace, h03, hd]
  · intro roll qc s hover
    by_cases h23 : TOTAL_SPACES - 1 ≤ s.playerPosition + roll
    · rw [handleRoll_clamped design roll qc s hover h23]
      simp only [TOTAL_SPACES] at h23
      exact ⟨rfl, rfl, fun hlt => absurd h23 (by omega), fun _ => rfl⟩
    · have hlt : s.playerPosition + roll < TOTAL_SPACES - 1 := by omega
      have htile : 0 < s.playerPosition + roll →
          tileAtSpace design (s.playerPosition + roll) = none := by
        intro hpos
        rw [tileAtSpace_eq design _ hpos hlt]
        simp [hd]
      rw [handleRoll_noTile design roll qc s hover hlt htile]
      simp only [TOTAL_SPACES] at hlt
      exact ⟨rfl, rfl, fun _ => rfl, fun hc => absurd hc (by omega)⟩

/-- Witness for C10 on the tile-less design `dEmpty`. -/
theorem claim_empty_tiles_safe_witness :
    dEmpty.tileTypes = [] ∧
    ((spaces dEmpty).length = 24 ∧
     (∀ i, i < 24 → (mkSpace dEmpty i).tileDetails = none) ∧
     (∀ (roll : Nat) (qc : ℚ) (s : GameState), s.isGameOver = false →
       (handleRoll dEmpty false roll qc s).1.currentEffect = none ∧
       (handleRoll dEmpty false roll qc s).2 = false ∧
       (s.playerPosition + roll < 23 →
         (handleRoll dEmpty false roll qc s).1.log =
           ("🎲 Rolled a " ++ toString roll ++ ". Moved to space " ++
             toString (s.playerPosition + roll + 1) ++ ".") :: s.log) ∧
       (23 ≤ s.playerPosition + roll →
         (handleRoll dEmpty false roll qc s).1.log =
           ("🏆 " ++ dEmpty.winningCondition) ::
           ("🎲 Rolled a " ++ toString roll ++ ". Reached the Finish!") :: s.log))) :=
  ⟨rfl, claim_empty_tiles_safe dEmpty rfl⟩

end GameCraft
